import Mathlib

/-!
Verification development for the observability core of the
`scrum-discord-bot` service: the label-keyed metrics registry
(`src/observability/metrics.rs`), the per-request instrumentation
middleware (`src/drivers/http/middlewares/mod.rs`), the telemetry
pipeline (`src/observability/trace.rs`, `src/observability/logging.rs`)
and the dual-listener orchestration (`src/bin/http.rs`).

Machine integers of the source (`u32` status codes, counter values) are
modelled as `Nat`; latencies (`f64` seconds) are modelled as `ℚ`, which
is exact for the decimal bucket literals of the source. Fallible Rust
code returning `anyhow::Result` is modelled with `Except String`.
-/

namespace Scrum

/-- The metric label key, `HttpRequestLabels` of
`src/observability/metrics.rs` (lines 31-36). The middleware populates
`method` with `req.method().to_string()`, so the field is modelled as a
string. -/
structure HttpRequestLabels where
  method : String
  path : String
  status_code : Nat
deriving DecidableEq, Repr

/-- One histogram aggregate: its bucket upper bounds, fixed when the
histogram is created, and the multiset of observed values (kept in
observation order). `prometheus_client`'s `Histogram::new(buckets)`
starts empty. -/
structure Histogram where
  buckets : List ℚ
  observations : List ℚ
deriving DecidableEq, Repr

/-- `Histogram::new(custom_buckets.into_iter())`. -/
def Histogram.new (bs : List ℚ) : Histogram :=
  { buckets := bs, observations := [] }

/-- `Histogram::observe(v)` records one value; buckets never change. -/
def Histogram.observe (h : Histogram) (v : ℚ) : Histogram :=
  { buckets := h.buckets, observations := h.observations ++ [v] }

/-- The bucket literal of `HttpMetrics::new`
(`src/observability/metrics.rs` lines 50-52 and 56-58, the same literal
is written twice in the source). -/
def custom_buckets : List ℚ :=
  [0.005, 0.01, 0.025, 0.05, 0.1, 0.25, 0.5, 1.0, 2.5, 5.0, 10.0]

/-- `Family<HttpRequestLabels, Counter>` as an insertion-ordered
association list; `get_or_create` of an unseen label lazily creates a
counter at 0. `get_or_create(&l).inc()` is `incEntries`. -/
def incEntries : List (HttpRequestLabels × Nat) → HttpRequestLabels →
    List (HttpRequestLabels × Nat)
  | [], l => [(l, 1)]
  | (k, v) :: rest, l =>
      if k = l then (k, v + 1) :: rest else (k, v) :: incEntries rest l

/-- Read a counter family at a label; an absent label reads as the
freshly-created counter value 0. -/
def countIn : List (HttpRequestLabels × Nat) → HttpRequestLabels → Nat
  | [], _ => 0
  | (k, v) :: rest, l => if k = l then v else countIn rest l

/-- `Family<HttpRequestLabels, Histogram>` built with
`new_with_constructor`: `bucketBounds` is the bucket list the stored
constructor closure passes to `Histogram::new`. -/
structure HistogramFamily where
  bucketBounds : List ℚ
  entries : List (HttpRequestLabels × Histogram)
deriving DecidableEq, Repr

/-- `Family::new_with_constructor(|| Histogram::new(bs))`. -/
def HistogramFamily.newWithConstructor (bs : List ℚ) : HistogramFamily :=
  { bucketBounds := bs, entries := [] }

/-- Helper for `get_or_create(&l).observe(v)` on the entry list: an
unseen label is first created by the family constructor with bounds
`bs`, then observed. -/
def observeEntries (bs : List ℚ) :
    List (HttpRequestLabels × Histogram) → HttpRequestLabels → ℚ →
    List (HttpRequestLabels × Histogram)
  | [], l, v => [(l, (Histogram.new bs).observe v)]
  | (k, h) :: rest, l, v =>
      if k = l then (k, h.observe v) :: rest
      else (k, h) :: observeEntries bs rest l v

/-- `family.get_or_create(&l).observe(v)`. -/
def HistogramFamily.observeAt (fam : HistogramFamily)
    (l : HttpRequestLabels) (v : ℚ) : HistogramFamily :=
  { bucketBounds := fam.bucketBounds
    entries := observeEntries fam.bucketBounds fam.entries l v }

/-- Read the observation list of a histogram entry list at a label; an
absent label reads as no observations. -/
def obsIn : List (HttpRequestLabels × Histogram) → HttpRequestLabels →
    List ℚ
  | [], _ => []
  | (k, h) :: rest, l => if k = l then h.observations else obsIn rest l

/-- Read the observation list of a histogram family at a label. -/
def histObs (fam : HistogramFamily) (l : HttpRequestLabels) : List ℚ :=
  obsIn fam.entries l

/-- `HttpMetrics` of `src/observability/metrics.rs` (lines 17-23): four
label-keyed families. -/
structure HttpMetrics where
  total_requests : List (HttpRequestLabels × Nat)
  request_with_error : List (HttpRequestLabels × Nat)
  latency_error : HistogramFamily
  latency_success : HistogramFamily
deriving DecidableEq, Repr

/-- `HttpMetrics::new` (lines 45-62): counter families default-empty,
both histogram families built with the `custom_buckets` constructor. -/
def HttpMetrics.new : HttpMetrics :=
  { total_requests := []
    request_with_error := []
    latency_error := HistogramFamily.newWithConstructor custom_buckets
    latency_success := HistogramFamily.newWithConstructor custom_buckets }

/-- An inbound request as the middleware sees it: the matched route
template (axum's `MatchedPath` extension) when the router matched,
the raw URI path, and the method string. -/
structure Request where
  matchedPath : Option String
  uriPath : String
  method : String
deriving DecidableEq, Repr

/-- A response: status code, headers, body. -/
structure Response where
  status : Nat
  headers : List (String × String)
  body : String
deriving DecidableEq, Repr

/-- Path resolution of `metrics_middleware`
(`src/drivers/http/middlewares/mod.rs` lines 18-22): the matched route
template when present, otherwise the raw URI path. -/
def resolvePath (req : Request) : String :=
  match req.matchedPath with
  | some matched_path => matched_path
  | none => req.uriPath

/-- `metrics_middleware` (`src/drivers/http/middlewares/mod.rs` lines
12-48). `next` is the rest of the stack; `latency` is the elapsed time
measured around `next.run(req).await`. Returns the response together
with the updated metrics state. -/
def metrics_middleware (state : HttpMetrics) (req : Request)
    (next : Request → Response) (latency : ℚ) : Response × HttpMetrics :=
  let path := resolvePath req
  let method := req.method
  let response := next req
  let status_code := response.status
  let labels : HttpRequestLabels :=
    { method := method, path := path, status_code := status_code }
  let state1 : HttpMetrics :=
    { state with total_requests := incEntries state.total_requests labels }
  let state2 : HttpMetrics :=
    if 200 < status_code ∧ status_code < 400 then
      { state1 with
          latency_success := state1.latency_success.observeAt labels latency }
    else
      { state1 with
          latency_error := state1.latency_error.observeAt labels latency }
  (response, state2)

/-- The label a given request resolves to (step 4 of the middleware
algorithm): method string, resolved path, response status. -/
def requestLabel (req : Request) (next : Request → Response) :
    HttpRequestLabels :=
  { method := req.method, path := resolvePath req
    status_code := (next req).status }

/-- Sequential processing of a list of `(request, latency)` events by
the instrumentation middleware, all dispatched through the same `next`
stage. -/
def processRequests (st : HttpMetrics) (next : Request → Response) :
    List (Request × ℚ) → HttpMetrics
  | [] => st
  | e :: rest =>
      processRequests (metrics_middleware st e.1 next e.2).2 next rest

/-! ### Settings (`src/configuration.rs`), restricted to the fields the
observability core reads -/

/-- `ApplicationSettings` (`src/configuration.rs` lines 29-32). -/
structure ApplicationSettings where
  name : String
  version : String
deriving DecidableEq, Repr

/-- `OpenTelemetrySettings` (`src/configuration.rs` lines 74-78). -/
structure OpenTelemetrySettings where
  endpoint : String
  enable : Bool
deriving DecidableEq, Repr

/-- `PrometheusSettings` (`src/configuration.rs` lines 95-100). -/
structure PrometheusSettings where
  port : Nat
  path : String
deriving DecidableEq, Repr

/-- The slice of `Settings` the observability core reads. -/
structure Settings where
  application : ApplicationSettings
  otel : OpenTelemetrySettings
  prometheus : PrometheusSettings
deriving DecidableEq, Repr

/-- `Settings::get_resource` (`src/configuration.rs` lines 81-92): the
service name/version resource attached to telemetry records. -/
def Settings.get_resource (s : Settings) : List (String × String) :=
  [("service.name", s.application.name),
   ("service.version", s.application.version)]

/-! ### Telemetry pipeline (`src/observability/trace.rs`,
`src/observability/logging.rs`) -/

/-- The span exporter selected by `init_trace`: the OTLP/tonic network
exporter of the `enable = true` branch, or the local
`opentelemetry_stdout::SpanExporter` of the `enable = false` branch. -/
inductive SpanExporter where
  | otlpTonic (endpoint : String)
  | stdoutSpanExporter
deriving DecidableEq, Repr

/-- Whether a span exporter exports over the network. -/
def SpanExporter.isNetworkExporter : SpanExporter → Bool
  | .otlpTonic _ => true
  | .stdoutSpanExporter => false

/-- The tracer provider built by `init_trace`: its exporter, and the
resource configured on it (`with_resource` is applied only on the
OTLP branch of the source). -/
structure TracerProvider where
  exporter : SpanExporter
  resource : Option (List (String × String))
deriving DecidableEq, Repr

/-- The log exporter of the `enable = true` branch of `init_log`
(OTLP over tonic); the `enable = false` branch installs no exporter. -/
inductive LogExporter where
  | otlpTonic (endpoint : String)
deriving DecidableEq, Repr

/-- The logger provider built by `init_log`. -/
structure LoggerProvider where
  exporter : Option LogExporter
  resource : List (String × String)
deriving DecidableEq, Repr

/-- Whether the logger provider exports over the network: only the
OTLP exporter does; a provider with no exporter is a local no-op. -/
def LoggerProvider.makesNetworkCalls (p : LoggerProvider) : Bool :=
  match p.exporter with
  | some (.otlpTonic _) => true
  | none => false

/-- `init_trace` (`src/observability/trace.rs` lines 12-37).
`install_batch` on the OTLP branch is fallible; its environmental
outcome is the `installOk` parameter. The `enable = false` branch
builds a stdout-exporter provider and cannot fail. -/
def init_trace (settings : Settings) (installOk : Bool) :
    Except String TracerProvider :=
  match settings.otel.enable with
  | true =>
      if installOk then
        Except.ok
          { exporter := SpanExporter.otlpTonic settings.otel.endpoint
            resource := some settings.get_resource }
      else Except.error "expected to genereate otlp provider"
  | false =>
      Except.ok
        { exporter := SpanExporter.stdoutSpanExporter, resource := none }

/-- `init_log` (`src/observability/logging.rs` lines 7-25). The
`enable = false` branch builds a provider with a resource but no
exporter and cannot fail. -/
def init_log (settings : Settings) (installOk : Bool) :
    Except String LoggerProvider :=
  match settings.otel.enable with
  | true =>
      if installOk then
        Except.ok
          { exporter := some (LogExporter.otlpTonic settings.otel.endpoint)
            resource := settings.get_resource }
      else Except.error "expected to genereate otlp log provider"
  | false =>
      Except.ok { exporter := none, resource := settings.get_resource }

/-! ### Registry and encoding (`src/observability/metrics.rs` lines
64-98, `src/bin/http.rs` lines 139-152) -/

/-- The value a registered family contributes to the registry. -/
inductive MetricValue where
  | counter (entries : List (HttpRequestLabels × Nat))
  | histogram (fam : HistogramFamily)
deriving DecidableEq, Repr

/-- One `registry.register(name, help, family)` record. -/
structure RegistryEntry where
  name : String
  help : String
  value : MetricValue
deriving DecidableEq, Repr

/-- `prometheus_client::registry::Registry`: a name prefix and the
registered families in registration order. -/
structure Registry where
  namePfx : String
  entries : List RegistryEntry
deriving DecidableEq, Repr

/-- `Registry::with_prefix(p)`. -/
def Registry.withPfx (p : String) : Registry :=
  { namePfx := p, entries := [] }

/-- `HttpMetrics::register` (`src/observability/metrics.rs` lines
64-84): attaches the four families with their names and help texts, in
source order. -/
def HttpMetrics.register (m : HttpMetrics) (registry : Registry) :
    Registry :=
  { registry with
      entries := registry.entries ++
        [{ name := "total_request", help := "Total amount of requests"
           value := MetricValue.counter m.total_requests },
         { name := "requests_with_error"
           help := "Amount of requests with error"
           value := MetricValue.counter m.request_with_error },
         { name := "latency_error", help := "Latency error"
           value := MetricValue.histogram m.latency_error },
         { name := "latency_success", help := "Latency success"
           value := MetricValue.histogram m.latency_success }] }

/-- `init_metrics` (`src/observability/metrics.rs` lines 87-98):
a prefixed registry with the four families registered once. -/
def init_metrics (settings : Settings) : HttpMetrics × Registry :=
  let registry := Registry.withPfx settings.application.name
  let http_metrics := HttpMetrics.new
  (http_metrics, http_metrics.register registry)

/-- Render one label set in exposition format. -/
def encodeLabelSet (l : HttpRequestLabels) : String :=
  "\x7bmethod=\"" ++ l.method ++ "\",path=\"" ++ l.path ++
    "\",status_code=\"" ++ toString l.status_code ++ "\"\x7d"

/-- Render the samples of a counter family. -/
def encodeCounterSamples (fullName : String)
    (es : List (HttpRequestLabels × Nat)) : String :=
  String.join (es.map fun e =>
    fullName ++ "_total" ++ encodeLabelSet e.1 ++ " " ++
      toString e.2 ++ "\n")

/-- Render the samples of a histogram family (count and sum lines per
label). -/
def encodeHistogramSamples (fullName : String) (fam : HistogramFamily) :
    String :=
  String.join (fam.entries.map fun e =>
    fullName ++ "_count" ++ encodeLabelSet e.1 ++ " " ++
      toString e.2.observations.length ++ "\n" ++
    fullName ++ "_sum" ++ encodeLabelSet e.1 ++ " " ++
      toString (e.2.observations.foldl (· + ·) 0) ++ "\n")

/-- The metric type name of an entry. -/
def MetricValue.typeName : MetricValue → String
  | .counter _ => "counter"
  | .histogram _ => "histogram"

/-- Modelled from the spec: the snapshot-encode operation
(`prometheus_client::encoding::text::encode`, a dependency whose body
is not part of this repository) "produces an OpenMetrics
exposition-format snapshot reflecting the current in-memory state at
the moment of the call": a deterministic text rendering of the
registered families, HELP/TYPE headers then samples, terminated by
`# EOF`. -/
def encode (registry : Registry) : String :=
  String.join (registry.entries.map fun e =>
    let fullName := registry.namePfx ++ "_" ++ e.name
    "# HELP " ++ fullName ++ " " ++ e.help ++ ".\n" ++
    "# TYPE " ++ fullName ++ " " ++ e.value.typeName ++ "\n" ++
    (match e.value with
     | .counter es => encodeCounterSamples fullName es
     | .histogram fam => encodeHistogramSamples fullName fam)) ++
  "# EOF\n"

/-- `metrics_handler` (`src/bin/http.rs` lines 139-152): lock the
registry, encode a snapshot into a fresh buffer, and return it as a
200 response with the OpenMetrics content type. -/
def metrics_handler (registry : Registry) : Response :=
  { status := 200
    headers :=
      [("content-type",
        "application/openmetrics-text; version=1.0.0; charset=utf-8")]
    body := encode registry }

/-! ### Dual-listener orchestration (`src/bin/http.rs` `main`,
`metrics_server`) -/

/-- The shutdown-relevant events of `main` and of the spawned metrics
serve task. `main` (lines 45-93) binds the metrics listener and spawns
its serve task inside `metrics_server` (lines 154-171), binds and
serves the application listener until graceful shutdown completes,
shuts the telemetry pipeline down, and returns `Ok(())`.
`metricsListenerDrained` is the spawned task's serve call returning
after its own graceful shutdown. -/
inductive OrchestrationEv where
  | bindMetricsListener
  | spawnMetricsTask
  | bindAppListener
  | appListenerDrained
  | telemetryShutdown
  | exitZero
  | metricsListenerDrained
deriving DecidableEq, Repr

/-- Events executed by the `main` task (everything except the spawned
metrics serve task's completion). -/
def isMainEv : OrchestrationEv → Bool
  | .metricsListenerDrained => false
  | _ => true

/-- The program order of `main`'s own events, read off
`src/bin/http.rs` lines 62-92: the metrics listener is bound and its
serve task spawned (`metrics_server`) before the application listener
is bound and served; telemetry shutdown follows the application
serve's return; `Ok(())` is last. -/
def mainOrder : List OrchestrationEv :=
  [.bindMetricsListener, .spawnMetricsTask, .bindAppListener,
   .appListenerDrained, .telemetryShutdown, .exitZero]

/-- The spawned task cannot complete before it is spawned. -/
def spawnBeforeDrained : List OrchestrationEv → Bool
  | [] => true
  | .metricsListenerDrained :: _ => false
  | .spawnMetricsTask :: _ => true
  | _ :: rest => spawnBeforeDrained rest

/-- A trace of the orchestration is valid when the `main` events occur
exactly in `main`'s program order, the spawned serve task completes at
most once, and not before it is spawned. The source (`tokio::spawn` in
`metrics_server`, whose `JoinHandle` is dropped, and `main` awaiting
only the application `axum::serve`) imposes no further ordering
between the spawned task's completion and `main`'s events. -/
def validTrace (t : List OrchestrationEv) : Bool :=
  decide (t.filter isMainEv = mainOrder) &&
  decide (t.count .metricsListenerDrained ≤ 1) &&
  spawnBeforeDrained t

/-- `beforeIn a b t`: the first occurrence of `a` in `t` is followed,
strictly later, by an occurrence of `b`. -/
def beforeIn (a b : OrchestrationEv) : List OrchestrationEv → Bool
  | [] => false
  | x :: rest => if x = a then decide (b ∈ rest) else beforeIn a b rest

/-- `main`'s tail (`src/bin/http.rs` lines 89-92): the logger
provider's shutdown result is discarded (`let _ = logger_provider
.shutdown();`) and `main` returns `Ok(())`, which the process maps to
exit code 0. -/
def mainEpilogue (loggerShutdownResult : Except String Unit) :
    Except String Unit :=
  let _ := loggerShutdownResult
  Except.ok ()

/-! ### Fixed-bucket invariant for the latency families -/

/-- Every histogram a family holds carries the family constructor's
bucket bounds. -/
def HistogramFamily.wellFormedBuckets (fam : HistogramFamily) : Prop :=
  ∀ e ∈ fam.entries, e.2.buckets = fam.bucketBounds

/-- Both latency families carry the fixed `custom_buckets` bounds, as
does every histogram they hold. -/
def bucketsFixed (st : HttpMetrics) : Prop :=
  st.latency_success.bucketBounds = custom_buckets ∧
  st.latency_error.bucketBounds = custom_buckets ∧
  st.latency_success.wellFormedBuckets ∧
  st.latency_error.wellFormedBuckets

/-! ### Basic lemmas about the family operations -/

theorem observeEntries_buckets (bs : List ℚ)
    (es : List (HttpRequestLabels × Histogram)) (l : HttpRequestLabels)
    (v : ℚ) (hwf : ∀ e ∈ es, e.2.buckets = bs) :
    ∀ e ∈ observeEntries bs es l v, e.2.buckets = bs := by
  induction es with
  | nil =>
    simp [observeEntries, Histogram.new, Histogram.observe]
  | cons e rest ih =>
    obtain ⟨k, h⟩ := e
    by_cases hk : k = l
    · intro x hx
      rw [observeEntries, if_pos hk] at hx
      rcases List.mem_cons.mp hx with hx | hx
      · subst hx
        simpa [Histogram.observe] using hwf (k, h) (List.mem_cons_self _ _)
      · exact hwf x (List.mem_cons_of_mem _ hx)
    · intro x hx
      rw [observeEntries, if_neg hk] at hx
      rcases List.mem_cons.mp hx with hx | hx
      · subst hx
        exact hwf (k, h) (List.mem_cons_self _ _)
      · exact ih (fun y hy => hwf y (List.mem_cons_of_mem _ hy)) x hx

theorem observeAt_bucketBounds (fam : HistogramFamily)
    (l : HttpRequestLabels) (v : ℚ) :
    (fam.observeAt l v).bucketBounds = fam.bucketBounds := rfl

theorem observeAt_wellFormedBuckets (fam : HistogramFamily)
    (l : HttpRequestLabels) (v : ℚ) (h : fam.wellFormedBuckets) :
    (fam.observeAt l v).wellFormedBuckets := by
  intro x hx
  rw [observeAt_bucketBounds]
  exact observeEntries_buckets fam.bucketBounds fam.entries l v h x hx

theorem countIn_incEntries_self (es : List (HttpRequestLabels × Nat))
    (l : HttpRequestLabels) :
    countIn (incEntries es l) l = countIn es l + 1 := by
  induction es with
  | nil => simp [incEntries, countIn]
  | cons e rest ih =>
    obtain ⟨k, v⟩ := e
    by_cases h : k = l
    · simp [incEntries, countIn, h]
    · simp [incEntries, countIn, h, ih]

theorem obsIn_observeEntries_self (bs : List ℚ)
    (es : List (HttpRequestLabels × Histogram)) (l : HttpRequestLabels)
    (v : ℚ) :
    obsIn (observeEntries bs es l v) l = obsIn es l ++ [v] := by
  induction es with
  | nil => simp [observeEntries, obsIn, Histogram.new, Histogram.observe]
  | cons e rest ih =>
    obtain ⟨k, h⟩ := e
    by_cases hk : k = l
    · simp [observeEntries, obsIn, hk, Histogram.observe]
    · simp [observeEntries, obsIn, hk, ih]

theorem histObs_observeAt_self (fam : HistogramFamily)
    (l : HttpRequestLabels) (v : ℚ) :
    histObs (fam.observeAt l v) l = histObs fam l ++ [v] := by
  simp [histObs, HistogramFamily.observeAt, obsIn_observeEntries_self]

/-! ### Effect of one middleware step on each family -/

theorem metrics_middleware_fst (st : HttpMetrics) (req : Request)
    (next : Request → Response) (lat : ℚ) :
    (metrics_middleware st req next lat).1 = next req := by
  simp only [metrics_middleware]

theorem metrics_middleware_total (st : HttpMetrics) (req : Request)
    (next : Request → Response) (lat : ℚ) :
    (metrics_middleware st req next lat).2.total_requests =
      incEntries st.total_requests (requestLabel req next) := by
  simp only [metrics_middleware, requestLabel]
  split <;> rfl

theorem metrics_middleware_rwe (st : HttpMetrics) (req : Request)
    (next : Request → Response) (lat : ℚ) :
    (metrics_middleware st req next lat).2.request_with_error =
      st.request_with_error := by
  simp only [metrics_middleware]
  split <;> rfl

theorem metrics_middleware_of_success (st : HttpMetrics) (req : Request)
    (next : Request → Response) (lat : ℚ)
    (h : 200 < (next req).status ∧ (next req).status < 400) :
    (metrics_middleware st req next lat).2.latency_success =
      st.latency_success.observeAt (requestLabel req next) lat ∧
    (metrics_middleware st req next lat).2.latency_error =
      st.latency_error := by
  simp only [metrics_middleware, requestLabel]
  rw [if_pos h]
  exact ⟨rfl, rfl⟩

theorem metrics_middleware_of_error (st : HttpMetrics) (req : Request)
    (next : Request → Response) (lat : ℚ)
    (h : ¬(200 < (next req).status ∧ (next req).status < 400)) :
    (metrics_middleware st req next lat).2.latency_error =
      st.latency_error.observeAt (requestLabel req next) lat ∧
    (metrics_middleware st req next lat).2.latency_success =
      st.latency_success := by
  simp only [metrics_middleware, requestLabel]
  rw [if_neg h]
  exact ⟨rfl, rfl⟩

theorem processRequests_rwe (next : Request → Response)
    (evs : List (Request × ℚ)) (st : HttpMetrics) :
    (processRequests st next evs).request_with_error =
      st.request_with_error := by
  induction evs generalizing st with
  | nil => rfl
  | cons e rest ih =>
    rw [processRequests, ih, metrics_middleware_rwe]

theorem processRequests_total_of_all_label (next : Request → Response)
    (L : HttpRequestLabels) (evs : List (Request × ℚ))
    (st : HttpMetrics) (hall : ∀ e ∈ evs, requestLabel e.1 next = L) :
    countIn (processRequests st next evs).total_requests L =
      countIn st.total_requests L + evs.length := by
  induction evs generalizing st with
  | nil => simp [processRequests]
  | cons e rest ih =>
    rw [processRequests]
    rw [ih _ fun x hx => hall x (List.mem_cons_of_mem e hx)]
    rw [metrics_middleware_total, hall e (List.mem_cons_self e rest),
      countIn_incEntries_self, List.length_cons]
    omega

theorem metrics_middleware_bucketsFixed (st : HttpMetrics)
    (req : Request) (next : Request → Response) (lat : ℚ)
    (h : bucketsFixed st) :
    bucketsFixed (metrics_middleware st req next lat).2 := by
  obtain ⟨hsb, heb, hsw, hew⟩ := h
  by_cases hc : 200 < (next req).status ∧ (next req).status < 400
  · obtain ⟨hs, he⟩ := metrics_middleware_of_success st req next lat hc
    refine ⟨?_, ?_, ?_, ?_⟩
    · rw [hs, observeAt_bucketBounds]; exact hsb
    · rw [he]; exact heb
    · rw [hs]; exact observeAt_wellFormedBuckets _ _ _ hsw
    · rw [he]; exact hew
  · obtain ⟨he, hs⟩ := metrics_middleware_of_error st req next lat hc
    refine ⟨?_, ?_, ?_, ?_⟩
    · rw [hs]; exact hsb
    · rw [he, observeAt_bucketBounds]; exact heb
    · rw [hs]; exact hsw
    · rw [he]; exact observeAt_wellFormedBuckets _ _ _ hew

/-! ### Ordering lemma for valid orchestration traces -/

theorem beforeIn_of_filter (p : OrchestrationEv → Bool)
    (a b : OrchestrationEv) (ha : p a = true) :
    ∀ (t l1 l2 : List OrchestrationEv),
      t.filter p = l1 ++ a :: l2 → a ∉ l1 → b ∈ l2 →
      beforeIn a b t = true := by
  intro t
  induction t with
  | nil =>
    intro l1 l2 hfil _ _
    rw [List.filter_nil] at hfil
    exact absurd hfil.symm (List.append_ne_nil_of_right_ne_nil l1 (by simp))
  | cons x rest ih =>
    intro l1 l2 hfil hnotin hb
    rw [List.filter_cons] at hfil
    by_cases hp : p x = true
    · rw [if_pos hp] at hfil
      cases l1 with
      | nil =>
        rw [List.nil_append] at hfil
        obtain ⟨hxa, hrest⟩ := List.cons.injEq .. ▸ hfil
        rw [beforeIn, if_pos hxa]
        exact decide_eq_true
          (List.mem_of_mem_filter (p := p) (hrest ▸ hb))
      | cons y l1' =>
        rw [List.cons_append] at hfil
        obtain ⟨hxy, hrest⟩ := List.cons.injEq .. ▸ hfil
        have hya : a ≠ y := fun hh => hnotin (hh ▸ List.mem_cons_self y l1')
        rw [beforeIn, if_neg (fun hh => hya (hh.symm.trans hxy))]
        exact ih l1' l2 hrest
          (fun hh => hnotin (List.mem_cons_of_mem y hh)) hb
    · rw [if_neg hp] at hfil
      have hxa : x ≠ a := fun hh => hp (hh ▸ ha)
      rw [beforeIn, if_neg hxa]
      exact ih l1 l2 hfil hnotin hb

/-- Concrete settings value used by witnesses: telemetry disabled. -/
def sampleSettings : Settings :=
  { application := { name := "scrum", version := "0.1.0" }
    otel := { endpoint := "http://collector:4317", enable := false }
    prometheus := { port := 9100, path := "/metrics" } }

/-! ### Claim theorems -/

/-- C1: for any sequence of N requests processed by the instrumentation
middleware whose resolved (method, path, status_code) label equals a
given label L, the `total_requests` counter for L equals exactly N
after all of them are processed; the increment is unconditional, for
every request regardless of status. -/
theorem total_requests_exact_count (next : Request → Response)
    (evs : List (Request × ℚ)) (L : HttpRequestLabels)
    (hall : ∀ e ∈ evs, requestLabel e.1 next = L) :
    countIn (processRequests HttpMetrics.new next evs).total_requests L =
      evs.length := by
  rw [processRequests_total_of_all_label next L evs HttpMetrics.new hall]
  simp [HttpMetrics.new, countIn]

/-- Witness for C1: two requests resolving to the same label leave its
`total_requests` counter at exactly 2. -/
theorem total_requests_exact_count_witness :
    countIn (processRequests HttpMetrics.new (fun _ => ⟨201, [], ""⟩)
      [(⟨none, "/x", "GET"⟩, 1), (⟨none, "/x", "GET"⟩, 2)]).total_requests
      ⟨"GET", "/x", 201⟩ = 2 :=
  total_requests_exact_count _ _ _ (by decide)

/-- C2 counterexample: a response with status exactly 200 — which the
claim's rule `200 ≤ status < 400` classifies as a success — has its
latency recorded into `latency_error`, not `latency_success` (the
middleware's guard is `status_code > 200`). -/
theorem status200_classified_error_not_success :
    200 ≤ 200 ∧ 200 < 400 ∧
    histObs (metrics_middleware HttpMetrics.new ⟨none, "/x", "GET"⟩
      (fun _ => ⟨200, [], ""⟩) (3 : ℚ)).2.latency_success
      ⟨"GET", "/x", 200⟩ = [] ∧
    histObs (metrics_middleware HttpMetrics.new ⟨none, "/x", "GET"⟩
      (fun _ => ⟨200, [], ""⟩) (3 : ℚ)).2.latency_error
      ⟨"GET", "/x", 200⟩ = [(3 : ℚ)] := by decide

/-- C2 amended: the middleware classifies with `200 < status < 400`
(status exactly 200 is excluded from the success range): in that range
the elapsed time is recorded into `latency_success` for the request's
label and `latency_error` is untouched; otherwise it is recorded into
`latency_error` and `latency_success` is untouched. -/
theorem latency_classification_rule (st : HttpMetrics) (req : Request)
    (next : Request → Response) (lat : ℚ) :
    (200 < (next req).status ∧ (next req).status < 400 →
      histObs (metrics_middleware st req next lat).2.latency_success
          (requestLabel req next) =
        histObs st.latency_success (requestLabel req next) ++ [lat] ∧
      (metrics_middleware st req next lat).2.latency_error =
        st.latency_error) ∧
    (¬(200 < (next req).status ∧ (next req).status < 400) →
      histObs (metrics_middleware st req next lat).2.latency_error
          (requestLabel req next) =
        histObs st.latency_error (requestLabel req next) ++ [lat] ∧
      (metrics_middleware st req next lat).2.latency_success =
        st.latency_success) := by
  constructor
  · intro h
    obtain ⟨hs, he⟩ := metrics_middleware_of_success st req next lat h
    exact ⟨by rw [hs, histObs_observeAt_self], he⟩
  · intro h
    obtain ⟨he, hs⟩ := metrics_middleware_of_error st req next lat h
    exact ⟨by rw [he, histObs_observeAt_self], hs⟩

/-- Witness for the amended C2: a 201 response is recorded into
`latency_success` and leaves `latency_error` unchanged. -/
theorem latency_classification_rule_witness :
    histObs (metrics_middleware HttpMetrics.new ⟨none, "/x", "GET"⟩
        (fun _ => ⟨201, [], ""⟩) (3 : ℚ)).2.latency_success
        (requestLabel ⟨none, "/x", "GET"⟩ (fun _ => ⟨201, [], ""⟩)) =
      histObs HttpMetrics.new.latency_success
        (requestLabel ⟨none, "/x", "GET"⟩ (fun _ => ⟨201, [], ""⟩)) ++
        [(3 : ℚ)] ∧
    (metrics_middleware HttpMetrics.new ⟨none, "/x", "GET"⟩
        (fun _ => ⟨201, [], ""⟩) (3 : ℚ)).2.latency_error =
      HttpMetrics.new.latency_error :=
  (latency_classification_rule HttpMetrics.new ⟨none, "/x", "GET"⟩
    (fun _ => ⟨201, [], ""⟩) (3 : ℚ)).1 (by decide)

/-- C3 counterexample: a response with status exactly 200 IS recorded
as an error latency observation (the claim says it is recorded as
neither a success nor an error observation). -/
theorem status200_recorded_as_error_observation :
    histObs (metrics_middleware HttpMetrics.new ⟨none, "/y", "GET"⟩
      (fun _ => ⟨200, [], ""⟩) (2 : ℚ)).2.latency_error
      ⟨"GET", "/y", 200⟩ = [(2 : ℚ)] := by decide

/-- C3 amended: a response with status exactly 200 is not counted in
`latency_success` — its latency is recorded into `latency_error`;
statuses 201 through 399 are recorded into `latency_success`; statuses
≥ 400 or < 200 are recorded into `latency_error`. -/
theorem latency_classification_boundaries (st : HttpMetrics)
    (req : Request) (next : Request → Response) (lat : ℚ) :
    ((next req).status = 200 →
      (metrics_middleware st req next lat).2.latency_success =
        st.latency_success ∧
      histObs (metrics_middleware st req next lat).2.latency_error
          (requestLabel req next) =
        histObs st.latency_error (requestLabel req next) ++ [lat]) ∧
    (201 ≤ (next req).status ∧ (next req).status ≤ 399 →
      histObs (metrics_middleware st req next lat).2.latency_success
          (requestLabel req next) =
        histObs st.latency_success (requestLabel req next) ++ [lat]) ∧
    (400 ≤ (next req).status ∨ (next req).status < 200 →
      histObs (metrics_middleware st req next lat).2.latency_error
          (requestLabel req next) =
        histObs st.latency_error (requestLabel req next) ++ [lat]) := by
  refine ⟨?_, ?_, ?_⟩
  · intro h
    obtain ⟨he, hs⟩ := metrics_middleware_of_error st req next lat
      (by omega)
    exact ⟨hs, by rw [he, histObs_observeAt_self]⟩
  · intro h
    obtain ⟨hs, _⟩ := metrics_middleware_of_success st req next lat
      (by omega)
    rw [hs, histObs_observeAt_self]
  · intro h
    obtain ⟨he, _⟩ := metrics_middleware_of_error st req next lat
      (by omega)
    rw [he, histObs_observeAt_self]

/-- Witness for the amended C3: at status exactly 200 the success
family is untouched and the error family records the latency. -/
theorem latency_classification_boundaries_witness :
    (metrics_middleware HttpMetrics.new ⟨none, "/y", "GET"⟩
        (fun _ => ⟨200, [], ""⟩) (2 : ℚ)).2.latency_success =
      HttpMetrics.new.latency_success ∧
    histObs (metrics_middleware HttpMetrics.new ⟨none, "/y", "GET"⟩
        (fun _ => ⟨200, [], ""⟩) (2 : ℚ)).2.latency_error
        (requestLabel ⟨none, "/y", "GET"⟩ (fun _ => ⟨200, [], ""⟩)) =
      histObs HttpMetrics.new.latency_error
        (requestLabel ⟨none, "/y", "GET"⟩ (fun _ => ⟨200, [], ""⟩)) ++
        [(2 : ℚ)] :=
  (latency_classification_boundaries HttpMetrics.new ⟨none, "/y", "GET"⟩
    (fun _ => ⟨200, [], ""⟩) (2 : ℚ)).1 rfl

/-- C4 counterexample: a valid orchestration trace in which telemetry
shutdown runs although the metrics listener's serve task has not yet
drained — `main` never joins the spawned task, so the claim that
telemetry is shut down only after BOTH listeners have drained fails. -/
theorem valid_trace_shutdown_before_metrics_drain :
    validTrace [.bindMetricsListener, .spawnMetricsTask,
      .bindAppListener, .appListenerDrained, .telemetryShutdown,
      .exitZero, .metricsListenerDrained] = true ∧
    OrchestrationEv.telemetryShutdown ∈
      ([.bindMetricsListener, .spawnMetricsTask, .bindAppListener,
        .appListenerDrained, .telemetryShutdown, .exitZero,
        .metricsListenerDrained] : List OrchestrationEv) ∧
    beforeIn .metricsListenerDrained .telemetryShutdown
      [.bindMetricsListener, .spawnMetricsTask, .bindAppListener,
       .appListenerDrained, .telemetryShutdown, .exitZero,
       .metricsListenerDrained] = false := by decide

/-- C4 amended: in every valid orchestration trace, the telemetry
pipeline is shut down only after the APPLICATION listener has fully
drained and before the process exits with code 0; and the telemetry
flush/release result is discarded (`let _ = logger_provider
.shutdown()`), so its failure never prevents `main` from returning
`Ok(())`. (The metrics listener's drain is not so ordered: its serve
task is spawned and never joined.) -/
theorem telemetry_shutdown_after_app_drain :
    (∀ t, validTrace t = true →
      beforeIn .appListenerDrained .telemetryShutdown t = true ∧
      beforeIn .telemetryShutdown .exitZero t = true) ∧
    (∀ r, mainEpilogue r = Except.ok ()) := by
  constructor
  · intro t ht
    simp only [validTrace, Bool.and_eq_true] at ht
    have hfil : t.filter isMainEv = mainOrder :=
      of_decide_eq_true ht.1.1
    constructor
    · exact beforeIn_of_filter isMainEv .appListenerDrained
        .telemetryShutdown rfl t
        [.bindMetricsListener, .spawnMetricsTask, .bindAppListener]
        [.telemetryShutdown, .exitZero]
        (by rw [hfil]; rfl) (by decide) (by decide)
    · exact beforeIn_of_filter isMainEv .telemetryShutdown .exitZero
        rfl t
        [.bindMetricsListener, .spawnMetricsTask, .bindAppListener,
         .appListenerDrained]
        [.exitZero]
        (by rw [hfil]; rfl) (by decide) (by decide)
  · intro r
    rfl

/-- Witness for the amended C4: in `main`'s own program order the
orderings hold, and a failed logger flush still yields `Ok(())`. -/
theorem telemetry_shutdown_after_app_drain_witness :
    (beforeIn .appListenerDrained .telemetryShutdown mainOrder = true ∧
     beforeIn .telemetryShutdown .exitZero mainOrder = true) ∧
    mainEpilogue (Except.error "flush failed") = Except.ok () :=
  ⟨telemetry_shutdown_after_app_drain.1 mainOrder (by decide),
   telemetry_shutdown_after_app_drain.2 (Except.error "flush failed")⟩

/-- C5: `init_trace` and `init_log` can fail only when
`settings.otel.enable` is true; when it is false both always return
`Ok`, constructing only a local stdout/no-exporter provider, and no
network export call is ever made by those providers. -/
theorem telemetry_init_disabled_isolation (s : Settings)
    (installOk : Bool) :
    (s.otel.enable = false →
      init_trace s installOk =
        Except.ok ⟨SpanExporter.stdoutSpanExporter, none⟩ ∧
      init_log s installOk = Except.ok ⟨none, s.get_resource⟩ ∧
      (∀ tp, init_trace s installOk = Except.ok tp →
        tp.exporter.isNetworkExporter = false) ∧
      (∀ lp, init_log s installOk = Except.ok lp →
        lp.makesNetworkCalls = false)) ∧
    (∀ e, init_trace s installOk = Except.error e →
      s.otel.enable = true) ∧
    (∀ e, init_log s installOk = Except.error e →
      s.otel.enable = true) := by
  refine ⟨?_, ?_, ?_⟩
  · intro hfalse
    refine ⟨?_, ?_, ?_, ?_⟩
    · simp [init_trace, hfalse]
    · simp [init_log, hfalse]
    · intro tp htp
      simp [init_trace, hfalse] at htp
      rw [← htp]
      rfl
    · intro lp hlp
      simp [init_log, hfalse] at hlp
      rw [← hlp]
      rfl
  · intro e he
    cases hen : s.otel.enable with
    | true => rfl
    | false => simp [init_trace, hen] at he
  · intro e he
    cases hen : s.otel.enable with
    | true => rfl
    | false => simp [init_log, hen] at he

/-- Witness for C5: with telemetry disabled in `sampleSettings`, both
constructors succeed with the local providers. -/
theorem telemetry_init_disabled_isolation_witness :
    init_trace sampleSettings true =
      Except.ok ⟨SpanExporter.stdoutSpanExporter, none⟩ ∧
    init_log sampleSettings true =
      Except.ok ⟨none, sampleSettings.get_resource⟩ :=
  ⟨((telemetry_init_disabled_isolation sampleSettings true).1 rfl).1,
   ((telemetry_init_disabled_isolation sampleSettings true).1 rfl).2.1⟩

/-- C6: the `path` field of the metric label is the matched route
template when the router matched a route, and falls back to the raw
request URI path otherwise; the middleware's `total_requests`
increment lands exactly on that resolved label. -/
theorem label_path_resolution (st : HttpMetrics) (req : Request)
    (next : Request → Response) (lat : ℚ) (p : String) :
    (req.matchedPath = some p → (requestLabel req next).path = p) ∧
    (req.matchedPath = none →
      (requestLabel req next).path = req.uriPath) ∧
    countIn (metrics_middleware st req next lat).2.total_requests
        (requestLabel req next) =
      countIn st.total_requests (requestLabel req next) + 1 := by
  refine ⟨?_, ?_, ?_⟩
  · intro h
    simp [requestLabel, resolvePath, h]
  · intro h
    simp [requestLabel, resolvePath, h]
  · rw [metrics_middleware_total, countIn_incEntries_self]

/-- Witness for C6: a request with a matched route template gets the
template, not the raw path, as its label path. -/
theorem label_path_resolution_witness :
    (requestLabel ⟨some "/todo/:id", "/todo/42", "GET"⟩
      (fun _ => ⟨200, [], ""⟩)).path = "/todo/:id" :=
  (label_path_resolution HttpMetrics.new
    ⟨some "/todo/:id", "/todo/42", "GET"⟩ (fun _ => ⟨200, [], ""⟩)
    1 "/todo/:id").1 rfl

/-- C7: both latency histogram families are constructed with exactly
the fixed bucket upper bounds {0.005, 0.01, 0.025, 0.05, 0.1, 0.25,
0.5, 1.0, 2.5, 5.0, 10.0} seconds, and middleware processing never
changes the bounds of the families or of any histogram they hold. -/
theorem latency_buckets_fixed :
    HttpMetrics.new.latency_success.bucketBounds =
      [0.005, 0.01, 0.025, 0.05, 0.1, 0.25, 0.5, 1.0, 2.5, 5.0, 10.0] ∧
    HttpMetrics.new.latency_error.bucketBounds =
      [0.005, 0.01, 0.025, 0.05, 0.1, 0.25, 0.5, 1.0, 2.5, 5.0, 10.0] ∧
    bucketsFixed HttpMetrics.new ∧
    ∀ (st : HttpMetrics) (req : Request) (next : Request → Response)
      (lat : ℚ), bucketsFixed st →
      bucketsFixed (metrics_middleware st req next lat).2 := by
  refine ⟨rfl, rfl, ⟨rfl, rfl, ?_, ?_⟩, metrics_middleware_bucketsFixed⟩
  · intro e he
    simp [HttpMetrics.new, HistogramFamily.newWithConstructor] at he
  · intro e he
    simp [HttpMetrics.new, HistogramFamily.newWithConstructor] at he

/-- Witness for C7: processing a concrete request preserves the fixed
bucket bounds. -/
theorem latency_buckets_fixed_witness :
    bucketsFixed (metrics_middleware HttpMetrics.new ⟨none, "/z", "GET"⟩
      (fun _ => ⟨500, [], ""⟩) (1 : ℚ)).2 :=
  latency_buckets_fixed.2.2.2 HttpMetrics.new ⟨none, "/z", "GET"⟩
    (fun _ => ⟨500, [], ""⟩) (1 : ℚ) latency_buckets_fixed.2.2.1

/-- C8: the registry snapshot-encode operation is a pure function of
the registry state — two encodes of the same registry state with no
intervening mutation produce byte-identical output, and so do the
bodies `metrics_handler` builds from them. -/
theorem encode_pure (r1 r2 : Registry) (h : r1 = r2) :
    encode r1 = encode r2 ∧
    (metrics_handler r1).body = (metrics_handler r2).body := by
  subst h
  exact ⟨rfl, rfl⟩

/-- Witness for C8: byte-identical output on the freshly initialised
registry of `sampleSettings`. -/
theorem encode_pure_witness :
    encode (init_metrics sampleSettings).2 =
      encode (init_metrics sampleSettings).2 ∧
    (metrics_handler (init_metrics sampleSettings).2).body =
      (metrics_handler (init_metrics sampleSettings).2).body :=
  encode_pure (init_metrics sampleSettings).2
    (init_metrics sampleSettings).2 rfl

/-- C9: the instrumentation middleware returns the inner handler's
response unchanged — status, headers and body are exactly those the
next stage produced; the metrics state is the only thing it updates
(its result besides the response is just the new `HttpMetrics`). -/
theorem middleware_preserves_response (st : HttpMetrics) (req : Request)
    (next : Request → Response) (lat : ℚ) :
    (metrics_middleware st req next lat).1 = next req ∧
    ((metrics_middleware st req next lat).1).status =
      (next req).status ∧
    ((metrics_middleware st req next lat).1).headers =
      (next req).headers ∧
    ((metrics_middleware st req next lat).1).body = (next req).body := by
  refine ⟨metrics_middleware_fst st req next lat, ?_, ?_, ?_⟩ <;>
    rw [metrics_middleware_fst]

/-- C10: the metrics state holds a fourth family,
`request_with_error`, registered under the name `requests_with_error`
with help text "Amount of requests with error", that no operation ever
increments: after any sequence of middleware-processed requests every
counter in it reads 0. -/
theorem request_with_error_never_incremented :
    (∀ (m : HttpMetrics) (reg : Registry),
      ({ name := "requests_with_error"
         help := "Amount of requests with error"
         value := MetricValue.counter m.request_with_error } :
        RegistryEntry) ∈ (m.register reg).entries) ∧
    ∀ (next : Request → Response) (evs : List (Request × ℚ))
      (L : HttpRequestLabels),
      countIn (processRequests HttpMetrics.new next
        evs).request_with_error L = 0 := by
  constructor
  · intro m reg
    simp [HttpMetrics.register]
  · intro next evs L
    rw [processRequests_rwe]
    rfl

end Scrum
